import Mathlib

/-!
Verification development for the GDK platform layer
(Source/Engine/Platform/GDK/GDKPlatform.cpp): a shallow embedding of the
session registry, its async callbacks, the tick dispatch loop and the
suspend/resume handshake, with theorems about the spec-level properties.
-/

/-- Embeds APP_LOCAL_DEVICE_ID: a raw fixed-width identifier (32 bytes).
The overloaded operator== (GDKPlatform.cpp:23-26) is MemoryCompare over the
whole struct, i.e. byte-exact equality of the full raw value, which is
definitional equality of the byte list here. -/
structure APP_LOCAL_DEVICE_ID where
  value : List Nat
deriving DecidableEq, Repr

/-- Embeds the byte-exact operator== on APP_LOCAL_DEVICE_ID
(GDKPlatform.cpp:23-26): MemoryCompare over the full raw identifier. -/
def deviceIdEq (l r : APP_LOCAL_DEVICE_ID) : Bool :=
  decide (l.value = r.value)

/-- Embeds XUserLocalId: a stable numeric identifier for a signed-in user
(compared by its raw value field throughout the source). -/
structure XUserLocalId where
  value : Nat
deriving DecidableEq, Repr

/-- Embeds struct User (GDKPlatform.cpp:33-51): an ownership handle for the
signed-in account, the local id used to correlate async notifications, and
the array of associated devices. -/
structure User where
  UserHandle : Nat
  LocalId : XUserLocalId
  AssociatedDevices : List APP_LOCAL_DEVICE_ID
deriving DecidableEq, Repr

/-- Embeds User::Set (GDKPlatform.cpp:39-44): stores the handle and local id
and clears the associated-device array. -/
def User.Set (_u : User) (userHandle : Nat) (localId : XUserLocalId) : User :=
  { UserHandle := userHandle, LocalId := localId, AssociatedDevices := [] }

/-- Embeds XUserChangeEvent: the cases the callback distinguishes
(SignedInAgain, SignedOut, and everything reaching the default branch). -/
inductive XUserChangeEvent where
  | SignedInAgain
  | SignedOut
  | OtherEvent
deriving DecidableEq, Repr

/-- Embeds XUserDeviceAssociationChange: the payload of a device-association
event (device identifier plus old and new user local ids). -/
structure XUserDeviceAssociationChange where
  deviceId : APP_LOCAL_DEVICE_ID
  oldUser : XUserLocalId
  newUser : XUserLocalId
deriving DecidableEq, Repr

/-- Abstract log messages: LOG statements emitted by the callbacks.
UserChangeEventCallback logs at GDKPlatform.cpp:105 and
UserDeviceAssociationChangedCallback at GDKPlatform.cpp:155; note that
AddUserComplete (GDKPlatform.cpp:198-219) contains no LOG statement. -/
inductive LogMsg where
  | userEvent (localId : Nat)
  | deviceAssociationEvent (oldUser : Nat) (newUser : Nat)
deriving DecidableEq, Repr

/-- Observable side effects of the signed-out path: closing the user handle
(XUserCloseHandle inside User::Unset, GDKPlatform.cpp:48) and removing the
registry entry (Users.RemoveAt, GDKPlatform.cpp:117), recorded in the order
the code performs them. -/
inductive SessionAction where
  | closeHandle (h : Nat)
  | removeEntry (localId : Nat)
deriving DecidableEq, Repr

/-- Embeds FindUser (GDKPlatform.cpp:139-151): linear scan for the first
user whose LocalId.value equals the requested id's value. -/
def FindUser (users : List User) (id : XUserLocalId) : Option User :=
  users.find? (fun u => u.LocalId.value == id.value)

/-- Embeds AddUserComplete (GDKPlatform.cpp:198-219). The async block's
payload is the outcome of XUserAddResult: `none` when it fails, and
`some (handle, localId)` on success (XUserGetLocalId is called twice on the
same handle at lines 205 and 208 and is deterministic, so both reads give
the same id). On success, if FindUser reports the id as absent, a fresh
entry is appended (Users.AddOne then User::Set); otherwise nothing changes.
The function contains no LOG statement, so its log output is always empty. -/
def AddUserComplete (users : List User) (result : Option (Nat × XUserLocalId)) :
    List LogMsg × List User :=
  match result with
  | none => ([], users)
  | some (userHandle, userLocalId) =>
    match FindUser users userLocalId with
    | some _ => ([], users)
    | none => ([], users ++ [User.Set ⟨0, ⟨0⟩, []⟩ userHandle userLocalId])

/-- Embeds the SignedOut branch of UserChangeEventCallback
(GDKPlatform.cpp:111-120): scan for the first entry whose LocalId matches,
call Unset on it (closing the handle) and then RemoveAt its index, breaking
out of the loop; entries before the match are kept, and if nothing matches
the registry is untouched. The action list records the close and the
removal in program order. -/
def removeSignedOut : List User → XUserLocalId → List SessionAction × List User
  | [], _ => ([], [])
  | u :: rest, id =>
    if u.LocalId.value = id.value then
      ([SessionAction.closeHandle u.UserHandle, SessionAction.removeEntry u.LocalId.value], rest)
    else
      let r := removeSignedOut rest id
      (r.1, u :: r.2)

/-- Embeds UserChangeEventCallback (GDKPlatform.cpp:103-124): logs the user
event (line 105), then switches on the event: SignedOut removes the
matching entry after closing its handle; SignedInAgain and the default
branch leave the registry unchanged. -/
def UserChangeEventCallback (users : List User) (userLocalId : XUserLocalId)
    (event : XUserChangeEvent) : List LogMsg × List SessionAction × List User :=
  match event with
  | XUserChangeEvent.SignedOut =>
    let r := removeSignedOut users userLocalId
    ([LogMsg.userEvent userLocalId.value], r.1, r.2)
  | _ => ([LogMsg.userEvent userLocalId.value], [], users)

/-- Updates the first user whose LocalId matches `id` with `f`, leaving the
rest untouched; identity when no user matches. This is the effect of the
FindUser-then-mutate-through-pointer pattern of
UserDeviceAssociationChangedCallback (GDKPlatform.cpp:157-167). -/
def updateFirst (users : List User) (id : XUserLocalId) (f : User → User) : List User :=
  match users with
  | [] => []
  | u :: rest =>
    if u.LocalId.value = id.value then f u :: rest
    else u :: updateFirst rest id f

/-- Modelled from the spec: Array::Remove on the fixed-capacity device array
(the Array container itself is not part of this translation unit). Per the
spec the device collection is an inline array whose removal takes out the
matching element found by the byte-exact comparison; this removes the first
occurrence. -/
def removeDevice : List APP_LOCAL_DEVICE_ID → APP_LOCAL_DEVICE_ID → List APP_LOCAL_DEVICE_ID
  | [], _ => []
  | d :: rest, x => if d = x then rest else d :: removeDevice rest x

/-- Occurrence count of a device identifier in a device array, using the
byte-exact identity of APP_LOCAL_DEVICE_ID. -/
def countDevice : List APP_LOCAL_DEVICE_ID → APP_LOCAL_DEVICE_ID → Nat
  | [], _ => 0
  | d :: rest, x => (if d = x then 1 else 0) + countDevice rest x

/-- The detach half of the device-association callback: remove the device
from the old user's array (GDKPlatform.cpp:160). Leaves handle and id
untouched. -/
def detachUser (c : XUserDeviceAssociationChange) (u : User) : User :=
  { u with AssociatedDevices := removeDevice u.AssociatedDevices c.deviceId }

/-- The attach half of the device-association callback: Array::Add appends
the device to the new user's array (GDKPlatform.cpp:166), modelled from the
spec's inline-array description (unconditional append). Leaves handle and
id untouched. -/
def attachUser (c : XUserDeviceAssociationChange) (u : User) : User :=
  { u with AssociatedDevices := u.AssociatedDevices ++ [c.deviceId] }

/-- Embeds UserDeviceAssociationChangedCallback (GDKPlatform.cpp:153-168):
logs the event (line 155), then removes the device from the old user's
array if FindUser locates the old user, and appends it to the new user's
array if FindUser locates the new user (in the registry as left by the
detach step); an absent side is simply skipped. -/
def UserDeviceAssociationChangedCallback (users : List User)
    (change : XUserDeviceAssociationChange) : List LogMsg × List User :=
  let users1 := updateFirst users change.oldUser (detachUser change)
  let users2 := updateFirst users1 change.newUser (attachUser change)
  ([LogMsg.deviceAssociationEvent change.oldUser.value change.newUser.value], users2)

/-- The local ids currently stored in the registry, in order. -/
def localIds (users : List User) : List Nat :=
  users.map (fun u => u.LocalId.value)

/-- The registry holds at most one entry per distinct local id. -/
def uniqueIds (users : List User) : Prop :=
  (localIds users).Nodup

/-- The handle/id identity of every session, in registry order; device-set
mutations leave this untouched. -/
def sessionIdentity (users : List User) : List (Nat × Nat) :=
  users.map (fun u => (u.UserHandle, u.LocalId.value))

/-- A completion delivered through the task queue to the main thread: a
sign-in result (AddUserComplete), a user-change event, or a
device-association change. -/
inductive Completion where
  | addUser (result : Option (Nat × XUserLocalId))
  | userChange (id : XUserLocalId) (event : XUserChangeEvent)
  | deviceAssociation (change : XUserDeviceAssociationChange)
deriving DecidableEq, Repr

/-- Applies one dispatched completion to the registry, returning the log
messages it emits and the new registry. -/
def applyCompletion (users : List User) : Completion → List LogMsg × List User
  | Completion.addUser r => AddUserComplete users r
  | Completion.userChange id e =>
    let r := UserChangeEventCallback users id e
    (r.1, r.2.2)
  | Completion.deviceAssociation c => UserDeviceAssociationChangedCallback users c

/-- Applies a whole sequence of completions in delivery (FIFO) order. -/
def applyCompletions (users : List User) (cs : List Completion) : List User :=
  cs.foldl (fun us c => (applyCompletion us c).2) users

/-- One observable processing step of GDKPlatform::Tick: either a task-queue
completion dispatched by XTaskQueueDispatch, or a native window message
pulled by PeekMessage. -/
inductive TickEvent where
  | completion (c : Completion)
  | windowMessage (m : Nat)
deriving DecidableEq, Repr

/-- Embeds the completion drain loop of GDKPlatform::Tick
(GDKPlatform.cpp:422-424): `while XTaskQueueDispatch(TaskQueue, Completion, 0)`
dispatches one queued completion per iteration with a zero timeout, so the
loop applies the queued completions front to back and stops exactly when
the dispatch call reports the port empty, without waiting for new entries.
Returns the registry after the drain and the processed events in order. -/
def drainCompletions : List User → List Completion → List User × List TickEvent
  | users, [] => (users, [])
  | users, c :: rest =>
    let r := drainCompletions (applyCompletion users c).2 rest
    (r.1, TickEvent.completion c :: r.2)

/-- Embeds the message drain loop of GDKPlatform::Tick
(GDKPlatform.cpp:427-433): PeekMessage with PM_REMOVE pulls queued window
messages until the queue is empty, dispatching each. Window messages do not
touch the session registry. -/
def drainMessages : List Nat → List TickEvent
  | [] => []
  | m :: rest => TickEvent.windowMessage m :: drainMessages rest

/-- Embeds GDKPlatform::Tick (GDKPlatform.cpp:415-434): first the completion
drain loop over the task queue's completion port, then the native message
loop, on the given queue contents. Returns the registry after the tick and
the full trace of processed events in order. -/
def Tick (users : List User) (completions : List Completion) (messages : List Nat) :
    List User × List TickEvent :=
  let r := drainCompletions users completions
  (r.1, r.2 ++ drainMessages messages)

/-- Embeds GDKPlatform::CanOpenUrl (GDKPlatform.cpp:508-511):
Users.HasItems(), true exactly when the registry is non-empty. -/
def CanOpenUrl (users : List User) : Bool :=
  !users.isEmpty

/-- Embeds the registry access performed by GDKPlatform::OpenUrl
(GDKPlatform.cpp:513-517): the code reads Users[0].UserHandle
unconditionally; here the access is modelled as an index-0 lookup that
yields the handle when the index is in bounds and `none` when the read
would be out of bounds (empty registry). -/
def OpenUrlAccess (users : List User) : Option Nat :=
  (users.get? 0).map (fun u => u.UserHandle)

/-- State of the suspend/resume handshake
(GDKPlatform.cpp:66-101 and 170-196). `npc` is the program counter of the
OS app-state notification thread: 0-4 walk the quiesced=true branch of the
callback registered at line 177 (reset PlmSuspendComplete, reset
PlmSignalResume, PostMessage WM_USER, then the WaitForSingleObject on
PlmSuspendComplete whose passage is step 4), and step 5 is the later
quiesced=false invocation that sets PlmSignalResume. `mpc` is the program
counter of the main thread's WM_USER handler (lines 70-84): receive the
posted message, set IsSuspended, fire OnSuspend, SetEvent
PlmSuspendComplete, wait on PlmSignalResume, clear IsSuspended, fire
OnResume. The two events are auto-reset (CreateEventEx with flags 0), so a
successful wait consumes the signal. Signals and flags are 0/1 valued. -/
structure HState where
  npc : Nat
  mpc : Nat
  suspendComplete : Nat
  signalResume : Nat
  posted : Nat
  isSuspended : Nat
  onSuspendCount : Nat
  onResumeCount : Nat
deriving DecidableEq, Repr

/-- Interleaving small-step semantics of the handshake: each constructor is
one statement of either thread, in the order the source executes them. The
two wait steps are enabled only when the awaited event is signaled
(INFINITE timeout: the thread takes no other step until then) and consume
the auto-reset signal. -/
inductive HStep : HState → HState → Prop
  | resetSuspendEvent (s : HState) : s.npc = 0 →
      HStep s { s with npc := 1, suspendComplete := 0 }
  | resetResumeEvent (s : HState) : s.npc = 1 →
      HStep s { s with npc := 2, signalResume := 0 }
  | postWakeup (s : HState) : s.npc = 2 →
      HStep s { s with npc := 3, posted := 1 }
  | waitSuspendComplete (s : HState) : s.npc = 3 → s.suspendComplete = 1 →
      HStep s { s with npc := 4, suspendComplete := 0 }
  | resumeNotification (s : HState) : s.npc = 4 →
      HStep s { s with npc := 5, signalResume := 1 }
  | receiveWakeup (s : HState) : s.mpc = 0 → s.posted = 1 →
      HStep s { s with mpc := 1, posted := 0 }
  | markSuspended (s : HState) : s.mpc = 1 →
      HStep s { s with mpc := 2, isSuspended := 1 }
  | fireOnSuspend (s : HState) : s.mpc = 2 →
      HStep s { s with mpc := 3, onSuspendCount := s.onSuspendCount + 1 }
  | ackQuiesce (s : HState) : s.mpc = 3 →
      HStep s { s with mpc := 4, suspendComplete := 1 }
  | waitResume (s : HState) : s.mpc = 4 → s.signalResume = 1 →
      HStep s { s with mpc := 5, signalResume := 0 }
  | clearSuspended (s : HState) : s.mpc = 5 →
      HStep s { s with mpc := 6, isSuspended := 0 }
  | fireOnResume (s : HState) : s.mpc = 6 →
      HStep s { s with mpc := 7, onResumeCount := s.onResumeCount + 1 }

/-- Initial handshake states: both threads at their entry point, no message
posted, no event fired yet; the two synchronization events may hold any
leftover value (the callback resets both before use). -/
def IsInit (s : HState) : Prop :=
  s.npc = 0 ∧ s.mpc = 0 ∧ s.posted = 0 ∧ s.onSuspendCount = 0 ∧ s.onResumeCount = 0 ∧
    s.suspendComplete ≤ 1 ∧ s.signalResume ≤ 1

/-- A handshake state reachable from an initial state by interleaved steps. -/
def Reach (s0 s : HState) : Prop :=
  Relation.ReflTransGen HStep s0 s

/-- Actions performed by OnMainWindowCreated (GDKPlatform.cpp:170-196):
the two CreateEventEx calls and the RegisterAppStateChangeNotification
call. -/
inductive InitAction where
  | createEvent
  | registerAppStateChange
deriving DecidableEq, Repr

/-- Embeds OnMainWindowCreated (GDKPlatform.cpp:170-196): both
synchronization events are created first (the creation results are the two
Option arguments, `none` meaning the CreateEventEx call failed); if either
handle is null the function returns before
RegisterAppStateChangeNotification is ever called; otherwise registration
is attempted and succeeds when the OS call does. Returns the action trace
and whether the app-state callback ended up registered. -/
def OnMainWindowCreated (plmSuspendComplete plmSignalResume : Option Nat)
    (registerSucceeds : Bool) : List InitAction × Bool :=
  match plmSuspendComplete, plmSignalResume with
  | some _, some _ =>
    ([InitAction.createEvent, InitAction.createEvent, InitAction.registerAppStateChange],
      registerSucceeds)
  | _, _ => ([InitAction.createEvent, InitAction.createEvent], false)

/-- System-level step: the OS invokes the app-state-change callback (and,
transitively, everything the handshake does, since the WM_USER message only
exists once that callback posts it) only when registration succeeded. -/
inductive SysStep (registered : Bool) : HState → HState → Prop
  | callback (s s' : HState) : registered = true → HStep s s' → SysStep registered s s'

-- Basic sanity checks of the embedding on small inputs.
example : (AddUserComplete [] (some (5, ⟨7⟩))).2 = [⟨5, ⟨7⟩, []⟩] := by rfl
example : (AddUserComplete [⟨5, ⟨7⟩, []⟩] (some (6, ⟨7⟩))).2 = [⟨5, ⟨7⟩, []⟩] := by rfl
example : (UserChangeEventCallback [⟨5, ⟨7⟩, []⟩] ⟨7⟩ XUserChangeEvent.SignedOut).2.2 = [] := by
  rfl
example : (UserChangeEventCallback [⟨5, ⟨7⟩, []⟩] ⟨9⟩ XUserChangeEvent.SignedOut).2.2
    = [⟨5, ⟨7⟩, []⟩] := by rfl

/-! ## Lemmas about the registry operations -/

theorem FindUser_eq_none (users : List User) (id : XUserLocalId) :
    FindUser users id = none ↔ ∀ u ∈ users, u.LocalId.value ≠ id.value := by
  simp [FindUser, List.find?_eq_none]

theorem removeSignedOut_not_found (users : List User) (id : XUserLocalId)
    (h : ∀ u ∈ users, u.LocalId.value ≠ id.value) :
    removeSignedOut users id = ([], users) := by
  induction users with
  | nil => rfl
  | cons u rest ih =>
    have hu : u.LocalId.value ≠ id.value := h u (by simp)
    simp [removeSignedOut, hu, ih (fun v hv => h v (by simp [hv]))]

theorem removeSignedOut_found (users : List User) (id : XUserLocalId) (u : User)
    (h : FindUser users id = some u) :
    ∃ pre post, users = pre ++ u :: post ∧ (∀ v ∈ pre, v.LocalId.value ≠ id.value) ∧
      removeSignedOut users id =
        ([SessionAction.closeHandle u.UserHandle,
          SessionAction.removeEntry u.LocalId.value], pre ++ post) := by
  induction users with
  | nil => simp [FindUser] at h
  | cons w rest ih =>
    by_cases hw : w.LocalId.value = id.value
    · have hfind : FindUser (w :: rest) id = some w := by
        simp only [FindUser]
        exact List.find?_cons_of_pos _ (by simp [hw])
      rw [hfind] at h
      obtain rfl : w = u := Option.some.inj h
      exact ⟨[], rest, by simp, by simp, by simp [removeSignedOut, hw]⟩
    · have hfind : FindUser (w :: rest) id = FindUser rest id := by
        simp only [FindUser]
        exact List.find?_cons_of_neg _ (by simp [hw])
      rw [hfind] at h
      obtain ⟨pre, post, he, hpre, hr⟩ := ih h
      refine ⟨w :: pre, post, by simp [he], ?_, by simp [removeSignedOut, hw, hr]⟩
      intro v hv
      rcases List.mem_cons.mp hv with hv | hv
      · subst hv; exact hw
      · exact hpre v hv

theorem removeSignedOut_sublist (users : List User) (id : XUserLocalId) :
    (removeSignedOut users id).2.Sublist users := by
  induction users with
  | nil => simp [removeSignedOut]
  | cons u rest ih =>
    by_cases h : u.LocalId.value = id.value
    · simp only [removeSignedOut, if_pos h]
      exact List.Sublist.cons u (List.Sublist.refl rest)
    · simp only [removeSignedOut, if_neg h]
      exact List.Sublist.cons₂ u ih

theorem map_updateFirst {β : Type} (f : User → β) (users : List User) (id : XUserLocalId)
    (g : User → User) (hg : ∀ u, f (g u) = f u) :
    (updateFirst users id g).map f = users.map f := by
  induction users with
  | nil => rfl
  | cons u rest ih =>
    by_cases h : u.LocalId.value = id.value
    · simp [updateFirst, h, hg]
    · simp [updateFirst, h, ih]

theorem updateFirst_not_found (users : List User) (id : XUserLocalId) (g : User → User)
    (h : ∀ u ∈ users, u.LocalId.value ≠ id.value) :
    updateFirst users id g = users := by
  induction users with
  | nil => rfl
  | cons u rest ih =>
    have hu : u.LocalId.value ≠ id.value := h u (by simp)
    simp [updateFirst, hu, ih (fun v hv => h v (by simp [hv]))]

theorem mem_updateFirst (users : List User) (id : XUserLocalId) (g : User → User)
    (v : User) (hv : v ∈ updateFirst users id g) :
    v ∈ users ∨ ∃ u, u ∈ users ∧ u.LocalId.value = id.value ∧ v = g u := by
  induction users with
  | nil => simp [updateFirst] at hv
  | cons u rest ih =>
    by_cases h : u.LocalId.value = id.value
    · simp only [updateFirst, if_pos h, List.mem_cons] at hv
      rcases hv with hv | hv
      · exact Or.inr ⟨u, by simp, h, hv⟩
      · exact Or.inl (by simp [hv])
    · simp only [updateFirst, if_neg h, List.mem_cons] at hv
      rcases hv with hv | hv
      · exact Or.inl (by simp [hv])
      · rcases ih hv with h1 | ⟨u', hu', he, hve⟩
        · exact Or.inl (by simp [h1])
        · exact Or.inr ⟨u', by simp [hu'], he, hve⟩

theorem localIds_deviceCallback (users : List User) (c : XUserDeviceAssociationChange) :
    localIds (UserDeviceAssociationChangedCallback users c).2 = localIds users := by
  simp only [UserDeviceAssociationChangedCallback, localIds]
  rw [map_updateFirst (fun u => u.LocalId.value) _ c.newUser (attachUser c) (fun u => rfl),
    map_updateFirst (fun u => u.LocalId.value) users c.oldUser (detachUser c) (fun u => rfl)]

theorem nodup_append_singleton {α : Type} (l : List α) (a : α) :
    l.Nodup → a ∉ l → (l ++ [a]).Nodup := by
  induction l with
  | nil => intro _ _; simp
  | cons b rest ih =>
    intro h ha
    rcases List.nodup_cons.mp h with ⟨hb, hrest⟩
    refine List.nodup_cons.mpr ⟨?_, ih hrest (fun hm => ha (by simp [hm]))⟩
    intro hmem
    rcases List.mem_append.mp hmem with hm | hm
    · exact hb hm
    · have he : b = a := List.mem_singleton.mp hm
      subst he
      exact ha (List.mem_cons_self b rest)

theorem uniqueIds_applyCompletion (users : List User) (c : Completion)
    (h : uniqueIds users) : uniqueIds (applyCompletion users c).2 := by
  cases c with
  | addUser r =>
    cases r with
    | none => simpa [applyCompletion, AddUserComplete] using h
    | some p =>
      obtain ⟨hh, id⟩ := p
      rcases hf : FindUser users id with _ | u
      · have hni : id.value ∉ localIds users := by
          have hall := (FindUser_eq_none users id).mp hf
          simp only [localIds, List.mem_map, not_exists]
          rintro u ⟨hu, he⟩
          exact hall u hu he
        simp only [applyCompletion, AddUserComplete, hf, uniqueIds, localIds, User.Set,
          List.map_append, List.map_cons, List.map_nil]
        exact nodup_append_singleton _ _ h hni
      · simpa [applyCompletion, AddUserComplete, hf] using h
  | userChange id e =>
    cases e with
    | SignedOut =>
      have hsub : ((removeSignedOut users id).2.map (fun u => u.LocalId.value)).Sublist
          (users.map (fun u => u.LocalId.value)) :=
        List.Sublist.map _ (removeSignedOut_sublist users id)
      simp only [applyCompletion, UserChangeEventCallback]
      exact List.Nodup.sublist hsub h
    | SignedInAgain => simpa [applyCompletion, UserChangeEventCallback] using h
    | OtherEvent => simpa [applyCompletion, UserChangeEventCallback] using h
  | deviceAssociation ch =>
    have := localIds_deviceCallback users ch
    simp only [uniqueIds] at h ⊢
    simpa [applyCompletion, this] using h

/-! ## Claim theorems for the session registry -/

/-- Claim C1: for every sequence of completions (sign-in results, sign-out
notifications, device reassociations) applied to the initially empty
Session Registry, the registry never contains two entries with the same
localId: a sign-in completion inserts only when FindUser reports the id
absent, and a sign-out removes at most the matching entry. -/
theorem registry_localId_unique (cs : List Completion) :
    uniqueIds (applyCompletions [] cs) := by
  have key : ∀ (cs : List Completion) (users : List User),
      uniqueIds users → uniqueIds (applyCompletions users cs) := by
    intro cs
    induction cs with
    | nil => intro users h; exact h
    | cons c rest ih =>
      intro users h
      exact ih _ (uniqueIds_applyCompletion users c h)
  exact key cs [] (by simp [uniqueIds, localIds])

/-- Claim C2: a successful sign-in completion for an absent localId appends
exactly one new UserSession with an empty associated-device set; when an
entry with that localId already exists, the registry is left unchanged. -/
theorem addUser_insert_or_noop (users : List User) (h : Nat) (id : XUserLocalId) :
    (FindUser users id = none →
      (AddUserComplete users (some (h, id))).2 = users ++ [⟨h, id, []⟩]) ∧
    (∀ u, FindUser users id = some u →
      (AddUserComplete users (some (h, id))).2 = users) := by
  constructor
  · intro hf
    simp [AddUserComplete, hf, User.Set]
  · intro u hf
    simp [AddUserComplete, hf]

/-- Witness for addUser_insert_or_noop at concrete inputs: a fresh sign-in
for localId 7 inserts one session with no devices, and a second sign-in for
the same localId leaves the registry unchanged. -/
theorem addUser_insert_or_noop_witness :
    (AddUserComplete [] (some (5, ⟨7⟩))).2 = [] ++ [⟨5, ⟨7⟩, []⟩] ∧
    (AddUserComplete [⟨5, ⟨7⟩, []⟩] (some (6, ⟨7⟩))).2 = [⟨5, ⟨7⟩, []⟩] :=
  ⟨(addUser_insert_or_noop [] 5 ⟨7⟩).1 rfl,
   (addUser_insert_or_noop [⟨5, ⟨7⟩, []⟩] 6 ⟨7⟩).2 ⟨5, ⟨7⟩, []⟩ rfl⟩

/-- Claim C3: a sign-out notification for a localId that is present closes
the matching entry's user handle before removing the entry from the
registry (the action trace is the close followed by the removal), and a
sign-out for an absent localId leaves the registry unchanged. -/
theorem signOut_closes_then_removes (users : List User) (id : XUserLocalId) :
    (FindUser users id = none →
      UserChangeEventCallback users id XUserChangeEvent.SignedOut
        = ([LogMsg.userEvent id.value], [], users)) ∧
    (∀ u, FindUser users id = some u →
      ∃ pre post, users = pre ++ u :: post ∧ (∀ v ∈ pre, v.LocalId.value ≠ id.value) ∧
        UserChangeEventCallback users id XUserChangeEvent.SignedOut
          = ([LogMsg.userEvent id.value],
             [SessionAction.closeHandle u.UserHandle,
              SessionAction.removeEntry u.LocalId.value], pre ++ post)) := by
  constructor
  · intro hf
    have := removeSignedOut_not_found users id ((FindUser_eq_none users id).mp hf)
    simp [UserChangeEventCallback, this]
  · intro u hf
    obtain ⟨pre, post, he, hpre, hr⟩ := removeSignedOut_found users id u hf
    exact ⟨pre, post, he, hpre, by simp [UserChangeEventCallback, hr]⟩

/-- Witness for signOut_closes_then_removes at concrete inputs: signing out
localId 9 from a one-entry registry holding localId 7 changes nothing;
signing out localId 7 closes handle 5 and then removes the entry. -/
theorem signOut_closes_then_removes_witness :
    UserChangeEventCallback [⟨5, ⟨7⟩, []⟩] ⟨9⟩ XUserChangeEvent.SignedOut
      = ([LogMsg.userEvent 9], [], [⟨5, ⟨7⟩, []⟩]) ∧
    ∃ pre post, ([⟨5, ⟨7⟩, []⟩] : List User) = pre ++ ⟨5, ⟨7⟩, []⟩ :: post ∧
      (∀ v ∈ pre, v.LocalId.value ≠ (7 : Nat)) ∧
      UserChangeEventCallback [⟨5, ⟨7⟩, []⟩] ⟨7⟩ XUserChangeEvent.SignedOut
        = ([LogMsg.userEvent 7],
           [SessionAction.closeHandle 5, SessionAction.removeEntry 7], pre ++ post) :=
  ⟨(signOut_closes_then_removes [⟨5, ⟨7⟩, []⟩] ⟨9⟩).1 rfl,
   (signOut_closes_then_removes [⟨5, ⟨7⟩, []⟩] ⟨7⟩).2 ⟨5, ⟨7⟩, []⟩ rfl⟩

/-- Claim C4: a device-association-change event never changes which sessions
are registered (same handles and localIds, in order, so no phantom session
appears and none is lost), and when neither the old nor the new identifier
matches a registered session the registry is left entirely unchanged. -/
theorem deviceChange_no_phantom (users : List User) (c : XUserDeviceAssociationChange) :
    sessionIdentity (UserDeviceAssociationChangedCallback users c).2 = sessionIdentity users ∧
    (FindUser users c.oldUser = none → FindUser users c.newUser = none →
      (UserDeviceAssociationChangedCallback users c).2 = users) := by
  constructor
  · simp only [UserDeviceAssociationChangedCallback, sessionIdentity]
    rw [map_updateFirst (fun u => (u.UserHandle, u.LocalId.value)) _ c.newUser (attachUser c)
        (fun u => rfl),
      map_updateFirst (fun u => (u.UserHandle, u.LocalId.value)) users c.oldUser (detachUser c)
        (fun u => rfl)]
  · intro hold hnew
    have h1 : updateFirst users c.oldUser (detachUser c) = users :=
      updateFirst_not_found users c.oldUser _ ((FindUser_eq_none users c.oldUser).mp hold)
    have h2 : updateFirst users c.newUser (attachUser c) = users :=
      updateFirst_not_found users c.newUser _ ((FindUser_eq_none users c.newUser).mp hnew)
    simp [UserDeviceAssociationChangedCallback, h1, h2]

/-- Witness for deviceChange_no_phantom at concrete inputs: an association
change whose old and new users are both unknown to the registry leaves the
one-entry registry untouched. -/
theorem deviceChange_no_phantom_witness :
    sessionIdentity (UserDeviceAssociationChangedCallback [⟨1, ⟨7⟩, []⟩] ⟨⟨[0]⟩, ⟨1⟩, ⟨2⟩⟩).2
      = sessionIdentity [⟨1, ⟨7⟩, []⟩] ∧
    (UserDeviceAssociationChangedCallback [⟨1, ⟨7⟩, []⟩] ⟨⟨[0]⟩, ⟨1⟩, ⟨2⟩⟩).2
      = [⟨1, ⟨7⟩, []⟩] :=
  ⟨(deviceChange_no_phantom [⟨1, ⟨7⟩, []⟩] ⟨⟨[0]⟩, ⟨1⟩, ⟨2⟩⟩).1,
   (deviceChange_no_phantom [⟨1, ⟨7⟩, []⟩] ⟨⟨[0]⟩, ⟨1⟩, ⟨2⟩⟩).2 rfl rfl⟩

/-! ## The tick dispatch loop -/

theorem drainCompletions_eq (cs : List Completion) (users : List User) :
    drainCompletions users cs = (applyCompletions users cs, cs.map TickEvent.completion) := by
  induction cs generalizing users with
  | nil => rfl
  | cons c rest ih =>
    simp [drainCompletions, applyCompletions, ih]

theorem drainMessages_eq (msgs : List Nat) :
    drainMessages msgs = msgs.map TickEvent.windowMessage := by
  induction msgs with
  | nil => rfl
  | cons m rest ih => simp [drainMessages, ih]

/-- Claim C6: one Tick processes exactly the completions queued at its
start, in FIFO order (the registry after the drain is the in-order fold of
applyCompletion over the queue), the drain terminates precisely when the
queue is exhausted without waiting for new entries, and every completion is
processed before any native window message is. -/
theorem tick_drains_completions_first (users : List User) (cs : List Completion)
    (msgs : List Nat) :
    Tick users cs msgs =
      (applyCompletions users cs,
        cs.map TickEvent.completion ++ msgs.map TickEvent.windowMessage) := by
  simp [Tick, drainCompletions_eq, drainMessages_eq]

/-- Refutes part of claim C7 at a concrete input: when XUserAddResult fails
(result `none`), AddUserComplete emits no log message at all — the failure
path of the source function contains no LOG statement — so the failed
completion is not logged, contrary to the claim. -/
theorem failedAdd_not_logged : (AddUserComplete [] none).1 = [] := rfl

/-- Claim C7 as amended: when a sign-in completion's result extraction
fails, the completion is discarded silently (no log is emitted) and the
registry is left unchanged, and the failure does not affect the application
of the other queued completions: a tick whose queue starts with the failed
completion still applies all remaining completions to the unchanged
registry, in order, and then drains the message queue. -/
theorem failedAdd_discarded (users : List User) (cs : List Completion) (msgs : List Nat) :
    AddUserComplete users none = ([], users) ∧
    Tick users (Completion.addUser none :: cs) msgs =
      (applyCompletions users cs,
        TickEvent.completion (Completion.addUser none)
          :: (cs.map TickEvent.completion ++ msgs.map TickEvent.windowMessage)) := by
  constructor
  · rfl
  · simp [Tick, drainCompletions_eq, drainMessages_eq, applyCompletions, applyCompletion,
      AddUserComplete]

/-- Claim C10: the index-0 registry read performed by OpenUrl is in bounds
exactly when the registry is non-empty, which is exactly the condition
under which CanOpenUrl returns true; on an empty registry the read is out
of bounds (`none`). -/
theorem openUrl_in_bounds_iff_canOpenUrl (users : List User) :
    (OpenUrlAccess users).isSome = CanOpenUrl users ∧
    CanOpenUrl users = decide (0 < users.length) ∧
    OpenUrlAccess [] = none := by
  refine ⟨?_, ?_, rfl⟩ <;> cases users <;> simp [OpenUrlAccess, CanOpenUrl]

/-! ## The suspend/resume handshake -/

/-- Inductive invariant of the handshake transition system: the wake-up
message exists only between the post and its receipt, the main-thread
handler only runs after the post, OnSuspend and OnResume each fire exactly
once at their program points, PlmSuspendComplete is signaled only between
the main thread's SetEvent and the notifier's wait, and the notifier passes
its wait only after the main thread has acknowledged. -/
def HandshakeInv (s : HState) : Prop :=
  s.npc ≤ 5 ∧ s.mpc ≤ 7 ∧ s.posted ≤ 1 ∧ s.suspendComplete ≤ 1 ∧ s.signalResume ≤ 1 ∧
  (s.posted = 1 → s.npc = 3 ∧ s.mpc = 0) ∧
  (1 ≤ s.mpc → 3 ≤ s.npc) ∧
  (3 ≤ s.mpc → s.onSuspendCount = 1) ∧ (s.mpc < 3 → s.onSuspendCount = 0) ∧
  (7 ≤ s.mpc → s.onResumeCount = 1) ∧ (s.mpc < 7 → s.onResumeCount = 0) ∧
  (s.suspendComplete = 1 → 1 ≤ s.npc → s.mpc = 4) ∧
  (4 ≤ s.npc → 4 ≤ s.mpc) ∧
  (4 ≤ s.npc → s.suspendComplete = 0) ∧
  (s.signalResume = 1 → 2 ≤ s.npc → s.npc = 5)

theorem HandshakeInv_init (s : HState) (h : IsInit s) : HandshakeInv s := by
  obtain ⟨h1, h2, h3, h4, h5, h6, h7⟩ := h
  refine ⟨by omega, by omega, by omega, h6, h7, ?_, ?_, ?_, ?_, ?_, ?_, ?_, ?_, ?_, ?_⟩ <;>
    omega

theorem HandshakeInv_step (s s' : HState) (h : HandshakeInv s) (hst : HStep s s') :
    HandshakeInv s' := by
  obtain ⟨i1, i2, i3, i4, i5, i6, i7, i8, i9, i10, i11, i12, i13, i14, i15⟩ := h
  cases hst <;> refine ⟨?_, ?_, ?_, ?_, ?_, ?_, ?_, ?_, ?_, ?_, ?_, ?_, ?_, ?_, ?_⟩ <;>
    dsimp only <;> omega

theorem HandshakeInv_reach (s0 s : HState) (h0 : IsInit s0) (h : Reach s0 s) : HandshakeInv s := by
  induction h with
  | refl => exact HandshakeInv_init s0 h0
  | tail _ hst ih => exact HandshakeInv_step _ _ ih hst

/-- Claim C5: in every execution of the suspend handshake (the notifier
resets both signals, posts the wake-up, then blocks on PlmSuspendComplete;
the main thread handles the wake-up, fires OnSuspend, then signals), if the
notifying thread has been released from its wait (program counter at or
past 4), the on-suspend event has fired exactly once and the main thread
has already performed the acknowledging SetEvent — the blocked thread is
never released before the on-suspend event has run. -/
theorem suspend_released_only_after_onSuspend (s0 s : HState) (h0 : IsInit s0)
    (hr : Reach s0 s) (hrel : 4 ≤ s.npc) :
    s.onSuspendCount = 1 ∧ 4 ≤ s.mpc := by
  have hinv := HandshakeInv_reach s0 s h0 hr
  obtain ⟨-, -, -, -, -, -, -, h8, -, -, -, -, h13, -, -⟩ := hinv
  have hm := h13 hrel
  exact ⟨h8 (by omega), hm⟩

/-- Witness for suspend_released_only_after_onSuspend: an explicit
interleaving from an initial state through reset-reset-post, the main
thread's receive, suspend-flag, OnSuspend, SetEvent, and the notifier's
released wait; at its end the on-suspend event has fired once. -/
theorem suspend_released_witness :
    (⟨4, 4, 0, 0, 0, 1, 1, 0⟩ : HState).onSuspendCount = 1 ∧
    4 ≤ (⟨4, 4, 0, 0, 0, 1, 1, 0⟩ : HState).mpc := by
  refine suspend_released_only_after_onSuspend
    ⟨0, 0, 0, 0, 0, 0, 0, 0⟩ _ ⟨rfl, rfl, rfl, rfl, rfl, by decide, by decide⟩ ?_ (by decide)
  have h1 : HStep ⟨0, 0, 0, 0, 0, 0, 0, 0⟩ ⟨1, 0, 0, 0, 0, 0, 0, 0⟩ :=
    HStep.resetSuspendEvent ⟨0, 0, 0, 0, 0, 0, 0, 0⟩ rfl
  have h2 : HStep ⟨1, 0, 0, 0, 0, 0, 0, 0⟩ ⟨2, 0, 0, 0, 0, 0, 0, 0⟩ :=
    HStep.resetResumeEvent ⟨1, 0, 0, 0, 0, 0, 0, 0⟩ rfl
  have h3 : HStep ⟨2, 0, 0, 0, 0, 0, 0, 0⟩ ⟨3, 0, 0, 0, 1, 0, 0, 0⟩ :=
    HStep.postWakeup ⟨2, 0, 0, 0, 0, 0, 0, 0⟩ rfl
  have h4 : HStep ⟨3, 0, 0, 0, 1, 0, 0, 0⟩ ⟨3, 1, 0, 0, 0, 0, 0, 0⟩ :=
    HStep.receiveWakeup ⟨3, 0, 0, 0, 1, 0, 0, 0⟩ rfl rfl
  have h5 : HStep ⟨3, 1, 0, 0, 0, 0, 0, 0⟩ ⟨3, 2, 0, 0, 0, 1, 0, 0⟩ :=
    HStep.markSuspended ⟨3, 1, 0, 0, 0, 0, 0, 0⟩ rfl
  have h6 : HStep ⟨3, 2, 0, 0, 0, 1, 0, 0⟩ ⟨3, 3, 0, 0, 0, 1, 1, 0⟩ :=
    HStep.fireOnSuspend ⟨3, 2, 0, 0, 0, 1, 0, 0⟩ rfl
  have h7 : HStep ⟨3, 3, 0, 0, 0, 1, 1, 0⟩ ⟨3, 4, 1, 0, 0, 1, 1, 0⟩ :=
    HStep.ackQuiesce ⟨3, 3, 0, 0, 0, 1, 1, 0⟩ rfl
  have h8 : HStep ⟨3, 4, 1, 0, 0, 1, 1, 0⟩ ⟨4, 4, 0, 0, 0, 1, 1, 0⟩ :=
    HStep.waitSuspendComplete ⟨3, 4, 1, 0, 0, 1, 1, 0⟩ rfl rfl
  exact ((((((((Relation.ReflTransGen.refl.tail h1).tail h2).tail h3).tail h4).tail
    h5).tail h6).tail h7).tail h8)

theorem sysStep_false_fix (s0 s : HState)
    (h : Relation.ReflTransGen (SysStep false) s0 s) : s = s0 := by
  induction h with
  | refl => rfl
  | tail _ hst ih =>
    cases hst with
    | callback hreg _ => exact Bool.noConfusion hreg

/-- Claim C8: when creation of either synchronization event fails (a `none`
handle), OnMainWindowCreated returns before registering for app-state
change notifications — registration is never attempted — and consequently
no handshake step can ever execute, so the on-suspend and on-resume events
never fire; the application simply continues without lifecycle deferral. -/
theorem signal_failure_aborts_registration (e1 e2 : Option Nat) (r : Bool)
    (hfail : e1 = none ∨ e2 = none) :
    (OnMainWindowCreated e1 e2 r).2 = false ∧
    InitAction.registerAppStateChange ∉ (OnMainWindowCreated e1 e2 r).1 ∧
    ∀ s0 s, IsInit s0 →
      Relation.ReflTransGen (SysStep (OnMainWindowCreated e1 e2 r).2) s0 s →
      s.onSuspendCount = 0 ∧ s.onResumeCount = 0 := by
  have hout : (OnMainWindowCreated e1 e2 r).2 = false ∧
      (OnMainWindowCreated e1 e2 r).1 = [InitAction.createEvent, InitAction.createEvent] := by
    rcases hfail with h | h
    · subst h; cases e2 <;> exact ⟨rfl, rfl⟩
    · subst h; cases e1 <;> exact ⟨rfl, rfl⟩
  refine ⟨hout.1, ?_, ?_⟩
  · rw [hout.2]; simp
  · intro s0 s h0 hr
    rw [hout.1] at hr
    have hs := sysStep_false_fix s0 s hr
    subst hs
    exact ⟨h0.2.2.2.1, h0.2.2.2.2.1⟩

/-- Witness for signal_failure_aborts_registration: with the first event
creation failing, no registration action is emitted, the registered flag is
false, and the untouched initial state has no suspend or resume event. -/
theorem signal_failure_witness :
    (OnMainWindowCreated none (some 5) true).2 = false ∧
    InitAction.registerAppStateChange ∉ (OnMainWindowCreated none (some 5) true).1 ∧
    ((⟨0, 0, 0, 0, 0, 0, 0, 0⟩ : HState).onSuspendCount = 0 ∧
      (⟨0, 0, 0, 0, 0, 0, 0, 0⟩ : HState).onResumeCount = 0) :=
  ⟨(signal_failure_aborts_registration none (some 5) true (Or.inl rfl)).1,
   (signal_failure_aborts_registration none (some 5) true (Or.inl rfl)).2.1,
   (signal_failure_aborts_registration none (some 5) true (Or.inl rfl)).2.2
     ⟨0, 0, 0, 0, 0, 0, 0, 0⟩ ⟨0, 0, 0, 0, 0, 0, 0, 0⟩
     ⟨rfl, rfl, rfl, rfl, rfl, by decide, by decide⟩ Relation.ReflTransGen.refl⟩

/-! ## Device sets: duplicates and the well-formed-event invariant -/

/-- Every session's device array holds each device identifier at most once
(the array behaves as a set). -/
def DevInv (users : List User) : Prop :=
  ∀ u ∈ users, ∀ d, countDevice u.AssociatedDevices d ≤ 1

/-- A device-association event is well formed for the current registry when
its oldUser field names every registered session currently holding the
device — i.e. the OS reports the device's current owner as the old user. -/
def eventWF (users : List User) (c : XUserDeviceAssociationChange) : Prop :=
  ∀ u ∈ users, 0 < countDevice u.AssociatedDevices c.deviceId →
    u.LocalId.value = c.oldUser.value

/-- Applies a sequence of device-association events through the callback. -/
def applyDeviceEvents : List User → List XUserDeviceAssociationChange → List User
  | users, [] => users
  | users, c :: rest =>
    applyDeviceEvents (UserDeviceAssociationChangedCallback users c).2 rest

/-- Every event of the sequence is well formed for the registry state at
the moment it is applied. -/
def eventsWF : List User → List XUserDeviceAssociationChange → Prop
  | _, [] => True
  | users, c :: rest =>
    eventWF users c ∧ eventsWF (UserDeviceAssociationChangedCallback users c).2 rest

theorem countDevice_removeDevice_self (l : List APP_LOCAL_DEVICE_ID) (x : APP_LOCAL_DEVICE_ID)
    (h : countDevice l x ≤ 1) : countDevice (removeDevice l x) x = 0 := by
  induction l with
  | nil => rfl
  | cons d rest ih =>
    by_cases hd : d = x
    · subst hd
      simp [countDevice] at h
      simp [removeDevice]
      omega
    · simp only [countDevice, if_neg hd] at h
      simp only [removeDevice, if_neg hd, countDevice, if_neg hd]
      have := ih (by omega)
      omega

theorem countDevice_removeDevice_le (l : List APP_LOCAL_DEVICE_ID) (x y : APP_LOCAL_DEVICE_ID) :
    countDevice (removeDevice l x) y ≤ countDevice l y := by
  induction l with
  | nil => exact Nat.le_refl _
  | cons d rest ih =>
    by_cases hd : d = x
    · simp only [removeDevice, if_pos hd, countDevice]
      omega
    · simp only [removeDevice, if_neg hd, countDevice]
      omega

theorem countDevice_append (l : List APP_LOCAL_DEVICE_ID) (x y : APP_LOCAL_DEVICE_ID) :
    countDevice (l ++ [x]) y = countDevice l y + (if x = y then 1 else 0) := by
  induction l with
  | nil =>
    simp only [List.nil_append, countDevice]
    omega
  | cons d rest ih =>
    show (if d = y then 1 else 0) + countDevice (rest ++ [x]) y
        = (if d = y then 1 else 0) + countDevice rest y + (if x = y then 1 else 0)
    rw [ih]
    omega

theorem uniqueIds_cons (u : User) (rest : List User) (h : uniqueIds (u :: rest)) :
    u.LocalId.value ∉ localIds rest ∧ uniqueIds rest := by
  have h' : (u.LocalId.value :: localIds rest).Nodup := by
    simpa [uniqueIds, localIds] using h
  exact ⟨(List.nodup_cons.mp h').1, (List.nodup_cons.mp h').2⟩

theorem detach_count_zero (users : List User) (c : XUserDeviceAssociationChange) :
    uniqueIds users → DevInv users → eventWF users c →
    ∀ v ∈ updateFirst users c.oldUser (detachUser c),
      countDevice v.AssociatedDevices c.deviceId = 0 := by
  induction users with
  | nil => intro _ _ _ v hv; simp [updateFirst] at hv
  | cons u rest ih =>
    intro hu hinv hwf v hv
    by_cases h : u.LocalId.value = c.oldUser.value
    · simp only [updateFirst, if_pos h, List.mem_cons] at hv
      rcases hv with hv | hv
      · subst hv
        exact countDevice_removeDevice_self _ _ (hinv u (by simp) c.deviceId)
      · by_contra hne
        have hpos : 0 < countDevice v.AssociatedDevices c.deviceId :=
          Nat.pos_of_ne_zero hne
        have heq := hwf v (by simp [hv]) hpos
        have hmem : u.LocalId.value ∈ localIds rest := by
          simp only [localIds]
          exact List.mem_map.mpr ⟨v, hv, heq.trans h.symm⟩
        exact (uniqueIds_cons u rest hu).1 hmem
    · simp only [updateFirst, if_neg h, List.mem_cons] at hv
      rcases hv with hv | hv
      · subst hv
        by_contra hne
        exact h (hwf v (by simp) (Nat.pos_of_ne_zero hne))
      · exact ih (uniqueIds_cons u rest hu).2
          (fun w hw d => hinv w (by simp [hw]) d)
          (fun w hw hp => hwf w (by simp [hw]) hp) v hv

theorem devInv_detach (users : List User) (c : XUserDeviceAssociationChange)
    (hinv : DevInv users) :
    DevInv (updateFirst users c.oldUser (detachUser c)) := by
  intro v hv d
  rcases mem_updateFirst _ _ _ _ hv with hm | ⟨u, hu, _, hve⟩
  · exact hinv v hm d
  · subst hve
    exact Nat.le_trans (countDevice_removeDevice_le _ _ _) (hinv u hu d)

theorem devInv_afterEvent (users : List User) (c : XUserDeviceAssociationChange)
    (hu : uniqueIds users) (hinv : DevInv users) (hwf : eventWF users c) :
    DevInv (UserDeviceAssociationChangedCallback users c).2 := by
  have h1 := devInv_detach users c hinv
  have h0 := detach_count_zero users c hu hinv hwf
  intro v hv d
  simp only [UserDeviceAssociationChangedCallback] at hv
  rcases mem_updateFirst _ _ _ _ hv with hm | ⟨u, hum, _, hve⟩
  · exact h1 v hm d
  · subst hve
    have hc : countDevice (attachUser c u).AssociatedDevices d
        = countDevice u.AssociatedDevices d + (if c.deviceId = d then 1 else 0) :=
      countDevice_append _ _ _
    rw [hc]
    by_cases hd : c.deviceId = d
    · subst hd
      rw [h0 u hum]
      simp
    · rw [if_neg hd]
      have := h1 u hum d
      omega

theorem uniqueIds_deviceCallback (users : List User) (c : XUserDeviceAssociationChange)
    (hu : uniqueIds users) : uniqueIds (UserDeviceAssociationChangedCallback users c).2 := by
  simp only [uniqueIds] at hu ⊢
  rw [localIds_deviceCallback]
  exact hu

/-- Refutes claim C9 as stated, at a concrete input: starting from one
session (localId 7, no devices), two association-change events whose
old-user id (9) matches no registered session and whose new-user id is 7
each append the same device identifier, so session 7's device array ends up
holding that identifier twice — the array does not behave as a set under
arbitrary event sequences. -/
theorem deviceSet_duplicate_counterexample :
    applyDeviceEvents [⟨1, ⟨7⟩, []⟩] [⟨⟨[0]⟩, ⟨9⟩, ⟨7⟩⟩, ⟨⟨[0]⟩, ⟨9⟩, ⟨7⟩⟩]
      = [⟨1, ⟨7⟩, [⟨[0]⟩, ⟨[0]⟩]⟩] ∧
    countDevice [⟨[0]⟩, ⟨[0]⟩] (⟨[0]⟩ : APP_LOCAL_DEVICE_ID) = 2 :=
  ⟨by decide, by decide⟩

/-- Claim C9 as amended: under the well-formedness assumption that each
device-association event's oldUser names every registered session currently
holding the device (the OS reports the device's actual current owner), a
registry with unique localIds and duplicate-free device arrays keeps every
device array duplicate-free (byte-exact comparison of the full raw
identifier) across any sequence of device-association-change events;
without that assumption the unconditional Array::Add can duplicate an
identifier. -/
theorem deviceSets_nodup_of_wf (users : List User) (cs : List XUserDeviceAssociationChange)
    (hu : uniqueIds users) (hinv : DevInv users) (hwf : eventsWF users cs) :
    DevInv (applyDeviceEvents users cs) := by
  induction cs generalizing users with
  | nil => exact hinv
  | cons c rest ih =>
    obtain ⟨hwf1, hwfr⟩ := hwf
    exact ih (UserDeviceAssociationChangedCallback users c).2
      (uniqueIds_deviceCallback users c hu) (devInv_afterEvent users c hu hinv hwf1) hwfr

/-- Witness for deviceSets_nodup_of_wf at concrete inputs: a single
well-formed attach of a fresh device to session 7 keeps the device array
duplicate-free. -/
theorem deviceSets_nodup_witness :
    DevInv (applyDeviceEvents [⟨1, ⟨7⟩, []⟩] [⟨⟨[0]⟩, ⟨9⟩, ⟨7⟩⟩]) :=
  deviceSets_nodup_of_wf [⟨1, ⟨7⟩, []⟩] [⟨⟨[0]⟩, ⟨9⟩, ⟨7⟩⟩]
    (by simp [uniqueIds, localIds])
    (by
      intro u hm d
      simp only [List.mem_singleton] at hm
      subst hm
      simp [countDevice])
    (by
      refine ⟨?_, trivial⟩
      intro u hm hp
      simp only [List.mem_singleton] at hm
      subst hm
      simp [countDevice] at hp)
